import Mathlib

/-!
Verification development for the document slice of a Go client binding to the
Onfido identity-verification REST API (`document.go`).

The Go source is shallowly embedded: byte streams (`io.ReadSeeker` backed by an
in-memory `bytes.Reader`) become an explicit `ReadSeeker` state record, the
multipart body becomes an ordered list of parts, and each client operation
becomes a pure function parameterised by the external collaborators (the MIME
sniffer, the JSON codec, the network).  Components of the repository that are
not in the provided source (the HTTP transport `Client.do` / `Client.download`,
`Client.newRequest`, and the generic pagination `iter`) are modelled from the
specification; their doc comments say so explicitly.
-/

namespace Onfido

/-! ## Quoted-string escaping (`escapeQuotes`, from `strings.NewReplacer`)

The Go source builds `quoteEscaper = strings.NewReplacer("\\", "\\\\", "\"", "\\\"")`
and applies it in `escapeQuotes`.  Both patterns are single characters, so the
replacer is exactly a character-by-character rewrite: each backslash becomes two
backslashes and each double quote becomes backslash-quote. -/

/-- The per-character action of the Go `quoteEscaper` replacer. -/
def escChar (c : Char) : List Char :=
  if c = '\\' then ['\\', '\\']
  else if c = '"' then ['\\', '"']
  else [c]

/-- `escapeQuotes` on character lists: the Go replacer applied left to right. -/
def escapeQuotesL : List Char → List Char
  | [] => []
  | c :: s => escChar c ++ escapeQuotesL s

/-- `escapeQuotes` from the source, on `String`. -/
def escapeQuotes (s : String) : String := ⟨escapeQuotesL s.toList⟩

/-- Quoted-string unescaping: a backslash quotes the following character.
This is the decoder for RFC 2388-style quoted-string escaping; it is the
left inverse of `escapeQuotesL`. -/
def unescapeQuotesL : List Char → List Char
  | [] => []
  | [c] => [c]
  | c :: d :: rest =>
    if c = '\\' then d :: unescapeQuotesL rest
    else c :: unescapeQuotesL (d :: rest)

/-- `unescapeQuotesL` on `String`. -/
def unescapeQuotes (s : String) : String := ⟨unescapeQuotesL s.toList⟩

/-- The `Content-Disposition` value written by `createFormFile`
(`fmt.Sprintf` with the two escaped arguments). -/
def formDataContentDisposition (fieldname filename : String) : String :=
  "form-data; name=\"" ++ escapeQuotes fieldname ++ "\"; filename=\"" ++
    escapeQuotes filename ++ "\""

lemma unescapeQuotesL_cons_of_ne (c : Char) (l : List Char) (hc : c ≠ '\\') :
    unescapeQuotesL (c :: l) = c :: unescapeQuotesL l := by
  cases l with
  | nil => rfl
  | cons d rest => simp [unescapeQuotesL, hc]

lemma unescapeQuotesL_escapeQuotesL (s : List Char) :
    unescapeQuotesL (escapeQuotesL s) = s := by
  induction s with
  | nil => rfl
  | cons c s ih =>
    by_cases hb : c = '\\'
    · subst hb
      simp [escapeQuotesL, escChar, unescapeQuotesL, ih]
    · by_cases hq : c = '"'
      · subst hq
        simp [escapeQuotesL, escChar, unescapeQuotesL, hb, ih]
      · simp only [escapeQuotesL, escChar, if_neg hb, if_neg hq, List.singleton_append]
        rw [unescapeQuotesL_cons_of_ne c _ hb, ih]

lemma escapeQuotesL_injective : Function.Injective escapeQuotesL :=
  Function.LeftInverse.injective unescapeQuotesL_escapeQuotesL

lemma escapeQuotesL_append (a b : List Char) :
    escapeQuotesL (a ++ b) = escapeQuotesL a ++ escapeQuotesL b := by
  induction a with
  | nil => rfl
  | cons c a ih => simp [escapeQuotesL, ih]

lemma unescapeQuotes_escapeQuotes (s : String) :
    unescapeQuotes (escapeQuotes s) = s := by
  cases s with
  | mk data =>
    simp only [unescapeQuotes, escapeQuotes, String.toList]
    rw [unescapeQuotesL_escapeQuotesL]

/-! ## Seekable byte streams (`io.ReadSeeker` over an in-memory `bytes.Reader`)

The Go tests exercise uploads with `bytes.NewReader`, so the stream model is a
byte buffer with a read position.  `read n` follows `bytes.Reader.Read`: at or
past the end it returns `(0, io.EOF)`; otherwise it returns up to `n` bytes
from the position and advances.  `seekStart` is `Seek(0, 0)`, which for a
`bytes.Reader` always succeeds.  `copyAll` is `io.Copy` from the stream: it
drains everything from the current position to the end. -/

/-- An I/O error value (Go `error`).  `eofErr` models `io.EOF`. -/
structure IOErr where
  msg : String
deriving DecidableEq, Repr

/-- The `io.EOF` error returned by `bytes.Reader.Read` at end of stream. -/
def eofErr : IOErr := ⟨"EOF"⟩

/-- A seekable in-memory byte stream: buffer contents plus read position. -/
structure ReadSeeker where
  content : List Nat
  pos : Nat
deriving DecidableEq, Repr

/-- `Read` into a buffer of size `n`, `bytes.Reader` semantics: returns the
bytes read and the error slot, together with the advanced stream. -/
def ReadSeeker.read (r : ReadSeeker) (n : Nat) :
    (List Nat × Option IOErr) × ReadSeeker :=
  if r.content.length ≤ r.pos then
    (([], some eofErr), r)
  else
    let d := (r.content.drop r.pos).take n
    ((d, none), { r with pos := r.pos + d.length })

/-- `Seek(0, 0)`: rewind to the start (never fails on a `bytes.Reader`). -/
def ReadSeeker.seekStart (r : ReadSeeker) : ReadSeeker := { r with pos := 0 }

/-- `io.Copy` out of the stream: all bytes from the current position on. -/
def ReadSeeker.copyAll (r : ReadSeeker) : List Nat × ReadSeeker :=
  (r.content.drop r.pos, { r with pos := r.content.length })

lemma ReadSeeker.read_content (r : ReadSeeker) (n : Nat) :
    ((r.read n).2).content = r.content := by
  unfold ReadSeeker.read
  split <;> rfl

/-! ## Multipart encoding

`multipart.Writer` over an in-memory `bytes.Buffer` emits one part per
`CreatePart` / `WriteField` call, in call order; writes to a `bytes.Buffer`
never fail.  A part is its MIME header plus its byte content.  Field values
are strings; their bytes are the code points of their characters. -/

/-- One part of a multipart/form-data body: headers plus content bytes. -/
structure Part where
  headers : List (String × String)
  content : List Nat
deriving DecidableEq, Repr

/-- Bytes of a string value written into a part. -/
def strBytes (s : String) : List Nat := s.toList.map Char.toNat

/-- `multipart.Writer.WriteField`: a part with a `form-data; name="…"`
disposition (name escaped as in the stdlib) and the value as content. -/
def fieldPart (name value : String) : Part :=
  ⟨[("Content-Disposition", "form-data; name=\"" ++ escapeQuotes name ++ "\"")],
    strBytes value⟩

/-- `createFormFile` from the source: read up to 512 bytes for sniffing
(failing on a read error), seek back to the start, and build the part header
with the escaped `Content-Disposition` and the sniffed `Content-Type`.
The MIME sniffer (`http.DetectContentType`) is an external collaborator and is
passed in as `detect`; as in Go it receives the full 512-byte buffer, zero
padded past the bytes actually read.  Returns the header of the new part and
the stream as left behind. -/
def createFormFile (detect : List Nat → String) (fieldname : String)
    (file : ReadSeeker) (filename : String) :
    Except IOErr (List (String × String) × ReadSeeker) :=
  let r := file.read 512
  match r.1.2 with
  | some e => .error e
  | none =>
    let f2 := r.2.seekStart
    let buffer := r.1.1 ++ List.replicate (512 - r.1.1.length) 0
    .ok ([("Content-Disposition", formDataContentDisposition fieldname filename),
          ("Content-Type", detect buffer)], f2)

/-! ## Data model (`DocumentType`, `DocumentSide`, request and result records) -/

/-- `DocumentType` represents a document type (passport, ID, etc). -/
abbrev DocumentType := String

/-- `DocumentSide` represents a document side (front, back). -/
abbrev DocumentSide := String

def DocumentTypeUnknown : DocumentType := "unknown"
def DocumentTypePassport : DocumentType := "passport"
def DocumentTypeIDCard : DocumentType := "national_identity_card"
def DocumentTypeDrivingLicense : DocumentType := "driving_licence"
def DocumentTypeUKBRP : DocumentType := "uk_biometric_residence_permit"
def DocumentTypeTaxID : DocumentType := "tax_id"
def DocumentTypeVoterID : DocumentType := "voter_id"
def DocumentTypeBankStatement : DocumentType := "bank_statement"
def DocumentSideFront : DocumentSide := "front"
def DocumentSideBack : DocumentSide := "back"

/-- `DocumentRequest` from the source: the upload arguments. -/
structure DocumentRequest where
  file : ReadSeeker
  type : DocumentType
  side : DocumentSide
  issuingCountry : String
deriving DecidableEq, Repr

/-- `Document` from the source: a decoded document record.  The creation
timestamp is kept as an optional integer (Unix time) in place of Go's
`*time.Time`. -/
structure Document where
  id : String
  createdAt : Option Int
  href : String
  downloadHref : String
  fileName : String
  fileType : String
  fileSize : Nat
  type : DocumentType
  side : DocumentSide
  issuingCountry : String
deriving DecidableEq, Repr

/-- The Go zero value of `Document`: what `var resp Document` starts as. -/
def Document.zero : Document :=
  ⟨"", none, "", "", "", "", 0, "", "", ""⟩

/-- `DocumentDownload` from the source: a downloaded blob with its size. -/
structure DocumentDownload where
  Size : Nat
  Content : List Nat
deriving DecidableEq, Repr

/-- `DocumentDownload.Write` from the source: overwrite `Content` with the
slice just passed, set `Size` to its length, and report `(len(data), nil)`. -/
def DocumentDownload.write (_d : DocumentDownload) (data : List Nat) :
    DocumentDownload × Nat × Option IOErr :=
  ({ Size := data.length, Content := data }, data.length, none)

/-- A sequence of `Write` calls against the same `DocumentDownload` sink. -/
def DocumentDownload.writeAll (d : DocumentDownload) (ws : List (List Nat)) :
    DocumentDownload :=
  ws.foldl (fun s w => (s.write w).1) d

/-! ## Errors and results

The spec's error kinds: encoding errors (local, before any network I/O), an
API error carrying the HTTP status of a non-2xx response, a decode error for
malformed JSON, and a request-construction error.  A Go function that returns
`(*T, error)` is modelled by `GoRet`: either an ordinary return of a possibly
nil pointer and a possibly nil error, or a runtime nil-pointer panic. -/

inductive OnfidoError where
  | encoding (e : IOErr)
  | apiError (status : Nat)
  | decodeError
  | reqError (msg : String)
deriving DecidableEq, Repr

/-- The outcome of a Go call returning `(*α, error)`: a normal return (value
pointer, error), or a nil-pointer dereference panic. -/
inductive GoRet (α : Type) where
  | ret (val : Option α) (err : Option OnfidoError)
  | nilPanic
deriving DecidableEq, Repr

/-! ## HTTP transport (modelled from the spec)

`Client.newRequest`, `Client.do` and `Client.download` live in other files of
the repository that are not part of the provided source, so they are modelled
from the spec here. -/

/-- An HTTP request as built by `newRequest`. -/
structure Request where
  method : String
  path : String
  headers : List (String × String)
  body : List Part
deriving DecidableEq, Repr

/-- An HTTP response: status code and raw body bytes. -/
structure HttpResponse where
  status : Nat
  body : List Nat
deriving DecidableEq, Repr

/-- Whether a status code is in the 2xx range. -/
def is2xx (status : Nat) : Bool := 200 ≤ status && status < 300

/-- Modelled from the spec: `Client.newRequest` (absent from the provided
source) "builds a request for a given method, path suffix (joined onto a
configured base endpoint), and body"; this is its successful behaviour,
returning the built request and a nil error. -/
def newRequestOk (method path : String) (body : List Part) :
    Option Request × Option OnfidoError :=
  (some ⟨method, path, [], body⟩, none)

/-- Modelled from the spec: `Client.do` (absent from the provided source).
"If the status code is outside the 2xx range, decode the body as a structured
error payload and fail with an API-error kind carrying the status code";
otherwise JSON-decode the body into the caller's target, failing with a decode
error on malformed JSON.  `target` is the caller's `var resp Document`, left
unpopulated unless a 2xx body decodes. -/
def transportDo (resp : HttpResponse) (target : Document)
    (decodeDoc : List Nat → Option Document) : Document × Option OnfidoError :=
  if is2xx resp.status then
    match decodeDoc resp.body with
    | some d => (d, none)
    | none => (target, some .decodeError)
  else (target, some (.apiError resp.status))

/-- Modelled from the spec: `Client.download` (absent from the provided
source).  "For binary endpoints copy raw bytes into a caller-supplied sink":
on a 2xx response it yields the raw body bytes unchanged, otherwise the API
error and no bytes. -/
def transportDownload (resp : HttpResponse) : List Nat × Option OnfidoError :=
  if is2xx resp.status then (resp.body, none)
  else ([], some (.apiError resp.status))

/-! ## Upload (`UploadDocument`)

The encoding phase runs entirely in the in-memory `bytes.Buffer`: the file
part via `createFormFile` plus `io.Copy`, then the three scalar fields via
`WriteField` (which over a memory buffer cannot fail), then `writer.Close()`.
Only afterwards is the request built and sent.  `uploadDocument` returns the
Go result together with a flag recording whether a network request was
issued. -/

/-- The encoding phase of `UploadDocument`: the multipart body it builds, or
the first encoding error.  Mirrors the source order: file part (header from
`createFormFile`, content from `io.Copy` of the stream as `createFormFile`
left it), then the `type`, `side` and `issuing_country` fields,
unconditionally. -/
def encodeUpload (detect : List Nat → String) (dr : DocumentRequest)
    (filename : String) : Except IOErr (List Part) :=
  match createFormFile detect "file" dr.file filename with
  | .error e => .error e
  | .ok (h, f2) =>
    .ok [⟨h, f2.copyAll.1⟩,
         fieldPart "type" dr.type,
         fieldPart "side" dr.side,
         fieldPart "issuing_country" dr.issuingCountry]

/-- The multipart content type set on the upload request
(`writer.FormDataContentType()`). -/
def formDataContentType : String := "multipart/form-data; boundary=onfido"

/-- `UploadDocument` from the source.  `reqm` is the modelled
`Client.newRequest`, returning Go's `(req, err)` pair; `net` performs the
round trip; `decodeDoc` is the JSON decoder for the response body.  The
source sets the Content-Type header on `req` BEFORE checking `err`, so a
request construction that fails with a nil request panics at the header-set
step instead of returning the error; the boolean records whether a network
request was issued. -/
def uploadDocument (detect : List Nat → String)
    (reqm : String → String → List Part → Option Request × Option OnfidoError)
    (net : Request → HttpResponse) (decodeDoc : List Nat → Option Document)
    (applicantID : String) (dr : DocumentRequest) (filename : String) :
    GoRet Document × Bool :=
  match encodeUpload detect dr filename with
  | .error e => (.ret none (some (.encoding e)), false)
  | .ok parts =>
    let r := reqm "POST" ("/applicants/" ++ applicantID ++ "/documents") parts
    match r.1 with
    | none => (.nilPanic, false)
    | some req =>
      let req := { req with
        headers := ("Content-Type", formDataContentType) :: req.headers }
      match r.2 with
      | some e => (.ret none (some e), false)
      | none =>
        let resp := net req
        let dres := transportDo resp Document.zero decodeDoc
        (.ret (some dres.1) dres.2, true)

/-- `GetDocument` from the source: build the GET request, bail out on a
construction error, otherwise perform the round trip and decode into a fresh
zero `Document`. -/
def getDocument
    (reqm : String → String → List Part → Option Request × Option OnfidoError)
    (net : Request → HttpResponse) (decodeDoc : List Nat → Option Document)
    (applicantID id : String) : GoRet Document :=
  let r := reqm "GET" ("/applicants/" ++ applicantID ++ "/documents/" ++ id) []
  match r.2 with
  | some e => .ret none (some e)
  | none =>
    match r.1 with
    | none => .nilPanic
    | some req =>
      let dres := transportDo (net req) Document.zero decodeDoc
      .ret (some dres.1) dres.2

/-- `DownloadDocument` from the source: build the GET request, bail out on a
construction error, otherwise download and wrap the blob as
`DocumentDownload{Content: blob, Size: len(blob)}` (built even when the
download errored, as in the source). -/
def downloadDocument
    (reqm : String → String → List Part → Option Request × Option OnfidoError)
    (net : Request → HttpResponse) (applicantID id : String) :
    GoRet DocumentDownload :=
  let r := reqm "GET"
    ("/applicants/" ++ applicantID ++ "/documents/" ++ id ++ "/download") []
  match r.2 with
  | some e => .ret none (some e)
  | none =>
    match r.1 with
    | none => .nilPanic
    | some req =>
      let dres := transportDownload (net req)
      .ret (some ⟨dres.1.length, dres.1⟩) dres.2

/-! ## Pagination iterator (`iter`, `DocumentIter`, `ListDocuments`)

The generic `iter` type is not in the provided source; it is modelled from
the spec's state machine: Ready (has a next-page URL, no error), Exhausted
(no next-page URL, no pending items), Failed (terminal, holds an error). -/

/-- One fetched, decoded page: its items and the next-page link. -/
structure PageResult where
  items : List Document
  next : Option String
deriving DecidableEq, Repr

/-- The iterator state: current page's decoded items, current index into
them, URL of the next page (none when exhausted), last error (terminal once
set). -/
structure DocumentIter where
  page : List Document
  index : Nat
  nextURL : Option String
  err : Option OnfidoError
deriving DecidableEq, Repr

/-- Modelled from the spec: the advance step of the generic pagination
`iter` (absent from the provided source).  "If the current page still has
unread items, advance the in-page index and return true.  Otherwise, if a
next-page URL is set, issue a fetch …, reset the in-page index to the first
item, update the next-page URL from the new page's link metadata, and return
true if the new page is non-empty; if fetch or decode fails, transition to
Failed, record the error, and return false.  If there is no next-page URL
and no pending items, return false without error."  Failed is terminal. -/
def DocumentIter.next (it : DocumentIter)
    (fetch : String → Except OnfidoError PageResult) : Bool × DocumentIter :=
  if it.err.isSome then (false, it)
  else if it.index + 1 < it.page.length then
    (true, { it with index := it.index + 1 })
  else
    match it.nextURL with
    | none => (false, it)
    | some url =>
      match fetch url with
      | .error e => (false, { it with err := some e })
      | .ok pr =>
        (!pr.items.isEmpty,
         { it with page := pr.items, index := 0, nextURL := pr.next })

/-- `DocumentIter.Document` from the source: the current item,
`i.Current()`, i.e. the page item at the in-page index (none models the
panic of calling it without a prior successful advance). -/
def DocumentIter.document (it : DocumentIter) : Option Document :=
  it.page[it.index]?

/-- The page handler installed by `ListDocuments`: unmarshal the body as a
`Documents` wrapper (the JSON codec is the external `decodeDocs`) and
flatten its items. -/
def listHandler (decodeDocs : List Nat → Option (List Document))
    (body : List Nat) : Except OnfidoError (List Document) :=
  match decodeDocs body with
  | none => .error .decodeError
  | some ds => .ok ds

/-- Modelled from the spec: the iterator's page fetch (performed by the
`iter` core, absent from the provided source): GET the page URL, fail with
the API error on a non-2xx status, otherwise run the installed handler on the
body and read the next-page link from the response metadata (`nextOf`). -/
def listFetch (net : String → HttpResponse) (nextOf : HttpResponse → Option String)
    (decodeDocs : List Nat → Option (List Document)) (url : String) :
    Except OnfidoError PageResult :=
  let resp := net url
  if is2xx resp.status then
    match listHandler decodeDocs resp.body with
    | .error e => .error e
    | .ok ds => .ok ⟨ds, nextOf resp⟩
  else .error (.apiError resp.status)

/-- `ListDocuments` from the source: a fresh iterator whose next-page URL is
the first-page URL for the applicant, with no loaded page and no error. -/
def listDocuments (applicantID : String) : DocumentIter :=
  { page := [], index := 0,
    nextURL := some ("/applicants/" ++ applicantID ++ "/documents"),
    err := none }

/-! ## Concrete fixtures for witnesses and counterexamples -/

/-- A four-byte in-memory stream, as in the Go tests (`bytes.NewReader([]byte("test"))`). -/
def fileTest : ReadSeeker := ⟨strBytes "test", 0⟩

/-- An upload request whose `side` and `issuing_country` are empty strings. -/
def drEmptySide : DocumentRequest := ⟨fileTest, DocumentTypeIDCard, "", ""⟩

/-- An upload request over an empty stream: the 512-byte sniffing read hits
`io.EOF` immediately, so encoding fails. -/
def drEmptyFile : DocumentRequest := ⟨⟨[], 0⟩, DocumentTypePassport, DocumentSideFront, ""⟩

/-- The multipart body produced for `drEmptySide` with a constant sniffer. -/
def partsEmptySide : List Part :=
  [⟨[("Content-Disposition", formDataContentDisposition "file" "file.png"),
     ("Content-Type", "text/plain")], strBytes "test"⟩,
   fieldPart "type" DocumentTypeIDCard, fieldPart "side" "",
   fieldPart "issuing_country" ""]

/-- A 403 response, as in the Go tests' non-OK handlers. -/
def resp403 : HttpResponse := ⟨403, []⟩

/-- A 200 response whose raw body is the 11 bytes of `hello world`. -/
def respHello : HttpResponse := ⟨200, strBytes "hello world"⟩

/-- A Go `(*Document, error)` return that failed and carries no result decoded
from a response body: the error is non-nil and the document pointer is nil or
still the untouched zero value. -/
def GoRet.failedUnpopulated : GoRet Document → Prop
  | .ret v e => e.isSome = true ∧ (v = none ∨ v = some Document.zero)
  | .nilPanic => False

/-! ## Claims -/

/-- C1, counterexample: the claim says a scalar field whose value is the empty
string produces no form part, but on the request `drEmptySide` (whose `side`
and `issuing_country` are both `""`) the encoded body still has four parts,
and parts 2 and 3 are exactly the `side` and `issuing_country` form parts
(with empty content). -/
theorem c1_empty_field_still_appended :
    drEmptySide.side = "" ∧ drEmptySide.issuingCountry = "" ∧
    (encodeUpload (fun _ => "text/plain") drEmptySide "file.png").toOption.map
      List.length = some 4 ∧
    ((encodeUpload (fun _ => "text/plain") drEmptySide "file.png").toOption.getD
      [])[2]? = some (fieldPart "side" "") ∧
    ((encodeUpload (fun _ => "text/plain") drEmptySide "file.png").toOption.getD
      [])[3]? = some (fieldPart "issuing_country" "") :=
  ⟨rfl, rfl, rfl, rfl, rfl⟩

/-- C1, amended: whenever upload encoding succeeds, the scalar form fields
`type`, `side` and `issuing_country` are appended after the file part
unconditionally — the body always has exactly four parts, the last three being
those fields, regardless of whether their values are empty. -/
theorem c1_scalar_fields_always_appended (detect : List Nat → String)
    (dr : DocumentRequest) (filename : String) (parts : List Part)
    (henc : encodeUpload detect dr filename = .ok parts) :
    parts.length = 4 ∧
    parts[1]? = some (fieldPart "type" dr.type) ∧
    parts[2]? = some (fieldPart "side" dr.side) ∧
    parts[3]? = some (fieldPart "issuing_country" dr.issuingCountry) := by
  unfold encodeUpload at henc
  cases hc : createFormFile detect "file" dr.file filename with
  | error e => rw [hc] at henc; simp at henc
  | ok p =>
    rw [hc] at henc
    cases p with
    | mk hd f2 =>
      simp only [Except.ok.injEq] at henc
      subst henc
      exact ⟨rfl, rfl, rfl, rfl⟩

/-- C1, witness for the amended theorem at the concrete request
`drEmptySide`. -/
theorem c1_scalar_fields_always_appended_witness :
    partsEmptySide.length = 4 ∧
    partsEmptySide[1]? = some (fieldPart "type" drEmptySide.type) ∧
    partsEmptySide[2]? = some (fieldPart "side" drEmptySide.side) ∧
    partsEmptySide[3]? = some (fieldPart "issuing_country" drEmptySide.issuingCountry) :=
  c1_scalar_fields_always_appended (fun _ => "text/plain") drEmptySide "file.png"
    partsEmptySide rfl

/-- C2: whenever `createFormFile` succeeds, the stream it hands back for the
body copy is positioned at offset 0, and copying it (`io.Copy`) yields the
complete original content of the stream — content-type sniffing consumed
nothing. -/
theorem c2_sniff_preserves_stream (detect : List Nat → String)
    (fieldname filename : String) (file : ReadSeeker)
    (hd : List (String × String)) (f2 : ReadSeeker)
    (hok : createFormFile detect fieldname file filename = .ok (hd, f2)) :
    f2.pos = 0 ∧ f2.copyAll.1 = file.content := by
  simp only [createFormFile] at hok
  cases hr : (file.read 512).1.2 with
  | some e => rw [hr] at hok; simp at hok
  | none =>
    rw [hr] at hok
    simp only [Except.ok.injEq, Prod.mk.injEq] at hok
    obtain ⟨-, h2⟩ := hok
    subst h2
    refine ⟨rfl, ?_⟩
    simp [ReadSeeker.copyAll, ReadSeeker.seekStart, ReadSeeker.read_content]

/-- C2, witness at the four-byte stream `fileTest`. -/
theorem c2_sniff_preserves_stream_witness :
    fileTest.pos = 0 ∧ fileTest.copyAll.1 = fileTest.content :=
  c2_sniff_preserves_stream (fun _ => "ct") "file" "f.png" fileTest
    [("Content-Disposition", formDataContentDisposition "file" "f.png"),
     ("Content-Type", "ct")] fileTest rfl

/-- C3: the Content-Disposition value carries the escaped field name and
filename; escaping distributes over append, doubles each backslash, turns
each double quote into backslash-quote, leaves other characters unchanged,
and is injective — unescaping recovers the original string exactly. -/
theorem c3_escaping_roundtrip :
    (∀ name filename : String,
      formDataContentDisposition name filename =
        "form-data; name=\"" ++ escapeQuotes name ++ "\"; filename=\"" ++
          escapeQuotes filename ++ "\"") ∧
    (∀ a b : List Char,
      escapeQuotesL (a ++ b) = escapeQuotesL a ++ escapeQuotesL b) ∧
    escapeQuotesL ['\\'] = ['\\', '\\'] ∧
    escapeQuotesL ['"'] = ['\\', '"'] ∧
    (∀ c : Char, c ≠ '\\' → c ≠ '"' → escapeQuotesL [c] = [c]) ∧
    (∀ s : String, unescapeQuotes (escapeQuotes s) = s) ∧
    Function.Injective escapeQuotesL ∧
    (∀ s t : String, escapeQuotes s = escapeQuotes t → s = t) := by
  refine ⟨fun _ _ => rfl, escapeQuotesL_append, rfl, rfl, ?_,
    unescapeQuotes_escapeQuotes, escapeQuotesL_injective, ?_⟩
  · intro c h1 h2
    simp [escapeQuotesL, escChar, h1, h2]
  · intro s t h
    have h1 : escapeQuotesL s.toList = escapeQuotesL t.toList :=
      congrArg String.toList h
    exact congrArg String.mk (escapeQuotesL_injective h1)

/-- C3, witness: the non-special-character case at `a`, and a concrete
round trip through a string containing both a backslash and a quote. -/
theorem c3_escaping_roundtrip_witness :
    escapeQuotesL ['a'] = ['a'] ∧
    unescapeQuotes (escapeQuotes "a\\b\"c") = "a\\b\"c" :=
  ⟨c3_escaping_roundtrip.2.2.2.2.1 'a' (by decide) (by decide),
   c3_escaping_roundtrip.2.2.2.2.2.1 "a\\b\"c"⟩

/-- C4: on a non-2xx response, upload never returns a populated success (its
result is a failed return whose document is nil or the untouched zero value),
get and download return the API error with the unpopulated zero result, and
the list iterator's first advance returns false recording the API error. -/
theorem c4_non2xx_fails (resp : HttpResponse) (hs : is2xx resp.status = false)
    (detect : List Nat → String) (decodeDoc : List Nat → Option Document)
    (decodeDocs : List Nat → Option (List Document))
    (nextOf : HttpResponse → Option String)
    (aid docid fname : String) (dr : DocumentRequest) :
    GoRet.failedUnpopulated
      (uploadDocument detect newRequestOk (fun _ => resp) decodeDoc aid dr fname).1 ∧
    getDocument newRequestOk (fun _ => resp) decodeDoc aid docid =
      .ret (some Document.zero) (some (.apiError resp.status)) ∧
    downloadDocument newRequestOk (fun _ => resp) aid docid =
      .ret (some ⟨0, []⟩) (some (.apiError resp.status)) ∧
    ((listDocuments aid).next (listFetch (fun _ => resp) nextOf decodeDocs)).1 =
      false ∧
    ((listDocuments aid).next (listFetch (fun _ => resp) nextOf decodeDocs)).2.err =
      some (.apiError resp.status) := by
  refine ⟨?_, ?_, ?_, ?_, ?_⟩
  · cases henc : encodeUpload detect dr fname with
    | error e => simp [uploadDocument, henc, GoRet.failedUnpopulated]
    | ok parts =>
      simp [uploadDocument, henc, newRequestOk, transportDo, hs,
        GoRet.failedUnpopulated]
  · simp [getDocument, newRequestOk, transportDo, hs]
  · simp [downloadDocument, newRequestOk, transportDownload, hs]
  · simp [listDocuments, DocumentIter.next, listFetch, hs]
  · simp [listDocuments, DocumentIter.next, listFetch, hs]

/-- C4, witness at a 403 response, mirroring the Go tests' non-OK handler. -/
theorem c4_non2xx_fails_witness :
    GoRet.failedUnpopulated
      (uploadDocument (fun _ => "ct") newRequestOk (fun _ => resp403)
        (fun _ => none) "a" drEmptySide "f.png").1 ∧
    getDocument newRequestOk (fun _ => resp403) (fun _ => none) "a" "d" =
      .ret (some Document.zero) (some (.apiError 403)) ∧
    downloadDocument newRequestOk (fun _ => resp403) "a" "d" =
      .ret (some ⟨0, []⟩) (some (.apiError 403)) ∧
    ((listDocuments "a").next
      (listFetch (fun _ => resp403) (fun _ => none) (fun _ => none))).1 = false ∧
    ((listDocuments "a").next
      (listFetch (fun _ => resp403) (fun _ => none) (fun _ => none))).2.err =
      some (.apiError 403) :=
  c4_non2xx_fails resp403 (by decide) (fun _ => "ct") (fun _ => none)
    (fun _ => none) (fun _ => none) "a" "d" "f.png" drEmptySide

/-- C5: if the fetch of the first page fails, the first advance returns
false, the error accessor returns that (non-nil) error, and the iterator is
terminally Failed: every later advance returns false and leaves the state
unchanged. -/
theorem c5_first_fetch_failure (aid : String) (e : OnfidoError)
    (fetch : String → Except OnfidoError PageResult)
    (hf : fetch ("/applicants/" ++ aid ++ "/documents") = .error e) :
    ((listDocuments aid).next fetch).1 = false ∧
    ((listDocuments aid).next fetch).2.err = some e ∧
    (∀ fetch2, (((listDocuments aid).next fetch).2).next fetch2 =
      (false, ((listDocuments aid).next fetch).2)) := by
  simp [listDocuments, DocumentIter.next, hf]

/-- C5, witness with a fetch that fails with the 403 API error. -/
theorem c5_first_fetch_failure_witness :
    ((listDocuments "a").next (fun _ => .error (.apiError 403))).1 = false ∧
    ((listDocuments "a").next (fun _ => .error (.apiError 403))).2.err =
      some (.apiError 403) ∧
    (∀ fetch2, (((listDocuments "a").next (fun _ => .error (.apiError 403))).2).next
      fetch2 =
      (false, ((listDocuments "a").next (fun _ => .error (.apiError 403))).2)) :=
  c5_first_fetch_failure "a" (.apiError 403) (fun _ => .error (.apiError 403)) rfl

/-- C6: over a first page with exactly one item and no next-page link,
advance returns true exactly once, the current item is that item, the error
accessor returns none, and the following advance returns false without
changing the state (clean exhaustion, still no error). -/
theorem c6_single_item_page (aid : String) (d : Document)
    (fetch : String → Except OnfidoError PageResult)
    (hf : fetch ("/applicants/" ++ aid ++ "/documents") = .ok ⟨[d], none⟩) :
    ((listDocuments aid).next fetch).1 = true ∧
    ((listDocuments aid).next fetch).2.document = some d ∧
    ((listDocuments aid).next fetch).2.err = none ∧
    (∀ fetch2, (((listDocuments aid).next fetch).2).next fetch2 =
      (false, ((listDocuments aid).next fetch).2)) := by
  simp [listDocuments, DocumentIter.next, hf, DocumentIter.document]

/-- C6, witness over a concrete single-item page. -/
theorem c6_single_item_page_witness :
    ((listDocuments "a").next (fun _ => .ok ⟨[Document.zero], none⟩)).1 = true ∧
    ((listDocuments "a").next (fun _ => .ok ⟨[Document.zero], none⟩)).2.document =
      some Document.zero ∧
    ((listDocuments "a").next (fun _ => .ok ⟨[Document.zero], none⟩)).2.err = none ∧
    (∀ fetch2, (((listDocuments "a").next
        (fun _ => .ok ⟨[Document.zero], none⟩)).2).next fetch2 =
      (false, ((listDocuments "a").next (fun _ => .ok ⟨[Document.zero], none⟩)).2)) :=
  c6_single_item_page "a" Document.zero (fun _ => .ok ⟨[Document.zero], none⟩) rfl

/-- C7: a successful download returns the blob whose `Content` is exactly the
raw response body and whose `Size` is its byte length, with no error. -/
theorem c7_download_exact (resp : HttpResponse) (hs : is2xx resp.status = true)
    (aid docid : String) :
    downloadDocument newRequestOk (fun _ => resp) aid docid =
      .ret (some ⟨resp.body.length, resp.body⟩) none := by
  simp [downloadDocument, newRequestOk, transportDownload, hs]

/-- C7, witness at the 11-byte body `hello world`: Size 11 and identical
content. -/
theorem c7_download_exact_witness :
    downloadDocument newRequestOk (fun _ => respHello) "a" "d" =
      .ret (some ⟨11, strBytes "hello world"⟩) none :=
  c7_download_exact respHello (by decide) "a" "d"

/-- C8: if upload encoding fails (for any reason the in-memory encoding phase
can fail), `UploadDocument` returns that error and no network request is
issued. -/
theorem c8_encode_failure_no_network (detect : List Nat → String)
    (reqm : String → String → List Part → Option Request × Option OnfidoError)
    (net : Request → HttpResponse) (decodeDoc : List Nat → Option Document)
    (aid fname : String) (dr : DocumentRequest) (e : IOErr)
    (henc : encodeUpload detect dr fname = .error e) :
    uploadDocument detect reqm net decodeDoc aid dr fname =
      (.ret none (some (.encoding e)), false) := by
  simp [uploadDocument, henc]

/-- C8, witness at an empty stream, whose sniffing read fails with `io.EOF`. -/
theorem c8_encode_failure_no_network_witness :
    uploadDocument (fun _ => "ct") newRequestOk (fun _ => resp403)
      (fun _ => none) "a" drEmptyFile "f.png" =
      (.ret none (some (.encoding eofErr)), false) :=
  c8_encode_failure_no_network (fun _ => "ct") newRequestOk (fun _ => resp403)
    (fun _ => none) "a" "f.png" drEmptyFile eofErr rfl

/-- C9: every `Write` call replaces `Content` with the slice just passed and
sets `Size` to its length, returning `(length, nil)`; hence `Size` equals the
length of `Content` after every call, and after any sequence of writes the
sink holds exactly the data of the most recent write, earlier bytes
discarded. -/
theorem c9_write_replaces (d : DocumentDownload) (data : List Nat)
    (ws : List (List Nat)) :
    d.write data = ({ Size := data.length, Content := data }, data.length, none) ∧
    (d.write data).1.Size = (d.write data).1.Content.length ∧
    d.writeAll (ws ++ [data]) = { Size := data.length, Content := data } := by
  refine ⟨rfl, rfl, ?_⟩
  simp [DocumentDownload.writeAll, List.foldl_append, DocumentDownload.write]

/-- C10: when upload encoding succeeds but request construction fails
returning a nil request, `UploadDocument` hits the nil-pointer dereference at
the header-set step (which the source runs before checking the construction
error) instead of returning that error. -/
theorem c10_nil_request_panics (detect : List Nat → String)
    (reqm : String → String → List Part → Option Request × Option OnfidoError)
    (net : Request → HttpResponse) (decodeDoc : List Nat → Option Document)
    (aid fname : String) (dr : DocumentRequest) (parts : List Part)
    (henc : encodeUpload detect dr fname = .ok parts)
    (hreq : (reqm "POST" ("/applicants/" ++ aid ++ "/documents") parts).1 = none) :
    uploadDocument detect reqm net decodeDoc aid dr fname = (.nilPanic, false) := by
  simp [uploadDocument, henc, hreq]

/-- C10, witness with a request constructor that fails with a nil request. -/
theorem c10_nil_request_panics_witness :
    uploadDocument (fun _ => "text/plain")
      (fun _ _ _ => (none, some (.reqError "bad url"))) (fun _ => resp403)
      (fun _ => none) "a" drEmptySide "file.png" = (.nilPanic, false) :=
  c10_nil_request_panics (fun _ => "text/plain")
    (fun _ _ _ => (none, some (.reqError "bad url"))) (fun _ => resp403)
    (fun _ => none) "a" "file.png" drEmptySide partsEmptySide rfl rfl

end Onfido
